import Mathlib

/-!
Verification development for the STRUCT-CALC ACERO structural engine.

The repository ships the Next.js frontend (`frontend/src/lib/api.ts`,
`frontend/src/lib/types.ts`, `frontend/src/app/bolts/page.tsx`, ...) while the
backend engine (`backend/engine/load_combinations.py`,
`backend/engine/verification.py`, `backend/engine/connections.py`) is only
referenced by the design documents.  Frontend functions are embedded directly
from the TypeScript source; engine functions are modelled from the spec, as
their doc comments state.  All exact arithmetic is over `ℚ`; the compression
check, whose Euler stress uses `π`, is over `ℝ`.
-/

namespace StructCalc

/-- The load-type tags of `frontend/src/lib/types.ts` (`type LoadType`):
the ten-member string union D, L, Lr, S, W, E, R, H, F, T. -/
inductive LoadType where
  | D | L | Lr | S | W | E | R | H | F | T
  deriving DecidableEq, Fintype, Repr

/-- The string tag of each `LoadType` member, as written in `types.ts`. -/
def loadTypeTag : LoadType → String
  | LoadType.D => "D"
  | LoadType.L => "L"
  | LoadType.Lr => "Lr"
  | LoadType.S => "S"
  | LoadType.W => "W"
  | LoadType.E => "E"
  | LoadType.R => "R"
  | LoadType.H => "H"
  | LoadType.F => "F"
  | LoadType.T => "T"

/-- The recognized load-type tags, in the order `types.ts` declares them. -/
def recognizedLoadTags : List String :=
  ["D", "L", "Lr", "S", "W", "E", "R", "H", "F", "T"]

/-- A load-combination rule: a name and a factor map from load-type tag to
factor, mirroring `LoadCombination` of `types.ts` (`factors: Record<string,
number>`), the factor map kept as an association list. -/
structure LoadCombination where
  name : String
  factors : List (String × ℚ)
  deriving DecidableEq, Repr

/-- A design method, `type DesignMethod = "LRFD" | "ASD"` of `types.ts`. -/
inductive DesignMethod where
  | LRFD | ASD
  deriving DecidableEq, Repr

/-- Modelled from the spec: the LRFD catalog of
`backend/engine/load_combinations.py` (not in the provided files), encoded
rule by rule from the spec's catalog listing "1.4D; 1.2D+1.6L+0.5(Lr|S|R);
1.2D+1.6(Lr|S|R)+(0.5L|0.5W); 1.2D+1.0W+L+0.5(Lr|S|R); 1.2D+1.0E+L+0.2S;
0.9D+1.0W; 0.9D+1.0E", each alternation tag carrying the listed factor. -/
def LRFD_COMBINATIONS : List LoadCombination :=
  [⟨"1.4D", [("D", 1.4)]⟩,
   ⟨"1.2D+1.6L+0.5(Lr|S|R)",
     [("D", 1.2), ("L", 1.6), ("Lr", 0.5), ("S", 0.5), ("R", 0.5)]⟩,
   ⟨"1.2D+1.6(Lr|S|R)+(0.5L|0.5W)",
     [("D", 1.2), ("Lr", 1.6), ("S", 1.6), ("R", 1.6), ("L", 0.5), ("W", 0.5)]⟩,
   ⟨"1.2D+1.0W+L+0.5(Lr|S|R)",
     [("D", 1.2), ("W", 1), ("L", 1), ("Lr", 0.5), ("S", 0.5), ("R", 0.5)]⟩,
   ⟨"1.2D+1.0E+L+0.2S", [("D", 1.2), ("E", 1), ("L", 1), ("S", 0.2)]⟩,
   ⟨"0.9D+1.0W", [("D", 0.9), ("W", 1)]⟩,
   ⟨"0.9D+1.0E", [("D", 0.9), ("E", 1)]⟩]

/-- Modelled from the spec: the ASD catalog of
`backend/engine/load_combinations.py` (not in the provided files), encoded
rule by rule from the spec's catalog listing "D; D+L; D+(Lr|S|R);
D+0.75L+0.75(Lr|S|R); D+0.6W; D+0.7E; D+0.75L+0.75(0.6W)+0.75(Lr|S|R);
D+0.75L+0.75(0.7E)+0.75S; 0.6D+0.6W; 0.6D+0.7E".  The listing enumerates ten
rules, although the spec's prose counts nine. -/
def ASD_COMBINATIONS : List LoadCombination :=
  [⟨"D", [("D", 1)]⟩,
   ⟨"D+L", [("D", 1), ("L", 1)]⟩,
   ⟨"D+(Lr|S|R)", [("D", 1), ("Lr", 1), ("S", 1), ("R", 1)]⟩,
   ⟨"D+0.75L+0.75(Lr|S|R)",
     [("D", 1), ("L", 0.75), ("Lr", 0.75), ("S", 0.75), ("R", 0.75)]⟩,
   ⟨"D+0.6W", [("D", 1), ("W", 0.6)]⟩,
   ⟨"D+0.7E", [("D", 1), ("E", 0.7)]⟩,
   ⟨"D+0.75L+0.75(0.6W)+0.75(Lr|S|R)",
     [("D", 1), ("L", 0.75), ("W", 0.45), ("Lr", 0.75), ("S", 0.75), ("R", 0.75)]⟩,
   ⟨"D+0.75L+0.75(0.7E)+0.75S",
     [("D", 1), ("L", 0.75), ("E", 0.525), ("S", 0.75)]⟩,
   ⟨"0.6D+0.6W", [("D", 0.6), ("W", 0.6)]⟩,
   ⟨"0.6D+0.7E", [("D", 0.6), ("E", 0.7)]⟩]

/-- The catalog selected by a design method. -/
def catalogFor : DesignMethod → List LoadCombination
  | DesignMethod.LRFD => LRFD_COMBINATIONS
  | DesignMethod.ASD => ASD_COMBINATIONS

/-- Modelled from the spec: the factored value of one combination,
"factoredValue = sum over tags present in the rule of (loadCaseSet[tag]
default 0) x factor"; the load-case set is a total map with default 0. -/
def factoredValue (lcs : String → ℚ) (c : LoadCombination) : ℚ :=
  (c.factors.map (fun p => lcs p.1 * p.2)).sum

/-- Modelled from the spec: the fold that keeps the combination of largest
magnitude factored value, replacing the current best only on a strictly
larger magnitude, so that on a tie the combination listed first wins. -/
def pickGoverning (lcs : String → ℚ) : LoadCombination → List LoadCombination → LoadCombination
  | best, [] => best
  | best, c :: rest =>
      if |factoredValue lcs best| < |factoredValue lcs c| then pickGoverning lcs c rest
      else pickGoverning lcs best rest

/-- Modelled from the spec: the governing combination of a catalog, with its
factored value, as the fold over the catalog starting at its first rule. -/
def selectFrom (lcs : String → ℚ) : List LoadCombination → LoadCombination × ℚ
  | [] => (⟨"none", []⟩, 0)
  | c :: rest =>
      let g := pickGoverning lcs c rest
      (g, factoredValue lcs g)

/-- Modelled from the spec: `select_governing_combination` of
`backend/engine/load_combinations.py` (not in the provided files) — the
governing combination of the selected catalog and its factored value. -/
def select_governing_combination (lcs : String → ℚ) (method : DesignMethod) :
    LoadCombination × ℚ :=
  selectFrom lcs (catalogFor method)

lemma pickGoverning_init_le (lcs : String → ℚ) :
    ∀ (l : List LoadCombination) (b : LoadCombination),
      |factoredValue lcs b| ≤ |factoredValue lcs (pickGoverning lcs b l)| := by
  intro l
  induction l with
  | nil => intro b; simp [pickGoverning]
  | cons c rest ih =>
      intro b
      by_cases h : |factoredValue lcs b| < |factoredValue lcs c|
      · simpa [pickGoverning, h] using le_trans (le_of_lt h) (ih c)
      · simpa [pickGoverning, h] using ih b

lemma pickGoverning_mem_le (lcs : String → ℚ) :
    ∀ (l : List LoadCombination) (b c : LoadCombination), c ∈ l →
      |factoredValue lcs c| ≤ |factoredValue lcs (pickGoverning lcs b l)| := by
  intro l
  induction l with
  | nil => intro b c hc; cases hc
  | cons d rest ih =>
      intro b c hc
      rcases List.mem_cons.mp hc with hc | hc
      · subst hc
        by_cases h : |factoredValue lcs b| < |factoredValue lcs c|
        · simpa [pickGoverning, h] using pickGoverning_init_le lcs rest c
        · have hcb : |factoredValue lcs c| ≤ |factoredValue lcs b| := le_of_not_lt h
          simpa [pickGoverning, h] using le_trans hcb (pickGoverning_init_le lcs rest b)
      · by_cases h : |factoredValue lcs b| < |factoredValue lcs d|
        · simpa [pickGoverning, h] using ih d c hc
        · simpa [pickGoverning, h] using ih b c hc

lemma pickGoverning_first (lcs : String → ℚ) :
    ∀ (l : List LoadCombination) (b : LoadCombination),
      pickGoverning lcs b l = b ∨
      ∃ i : Fin l.length, l.get i = pickGoverning lcs b l ∧
        |factoredValue lcs b| < |factoredValue lcs (pickGoverning lcs b l)| ∧
        ∀ j : Fin l.length, (j : ℕ) < (i : ℕ) →
          |factoredValue lcs (l.get j)| < |factoredValue lcs (pickGoverning lcs b l)| := by
  intro l
  induction l with
  | nil => intro b; left; rfl
  | cons c rest ih =>
      intro b
      by_cases h : |factoredValue lcs b| < |factoredValue lcs c|
      · right
        have hg : pickGoverning lcs b (c :: rest) = pickGoverning lcs c rest := by
          simp [pickGoverning, h]
        rw [hg]
        rcases ih c with h0 | ⟨i, hi, hlt, hfirst⟩
        · refine ⟨⟨0, by simp⟩, ?_, ?_, ?_⟩
          · simpa using h0.symm
          · rw [h0]; exact h
          · intro j hj; exact absurd hj (Nat.not_lt_zero _)
        · refine ⟨i.succ, ?_, lt_trans h hlt, ?_⟩
          · simpa using hi
          · intro j hj
            rcases Fin.eq_zero_or_eq_succ j with rfl | ⟨j', rfl⟩
            · simpa using hlt
            · have hj' : (j' : ℕ) < (i : ℕ) := by
                simpa [Fin.val_succ] using hj
              simpa using hfirst j' hj'
      · have hg : pickGoverning lcs b (c :: rest) = pickGoverning lcs b rest := by
          simp [pickGoverning, h]
        rw [hg]
        rcases ih b with h0 | ⟨i, hi, hlt, hfirst⟩
        · left; exact h0
        · right
          refine ⟨i.succ, by simpa using hi, hlt, ?_⟩
          intro j hj
          rcases Fin.eq_zero_or_eq_succ j with rfl | ⟨j', rfl⟩
          · have hcb : |factoredValue lcs c| ≤ |factoredValue lcs b| := le_of_not_lt h
            simpa using lt_of_le_of_lt hcb hlt
          · have hj' : (j' : ℕ) < (i : ℕ) := by
              simpa [Fin.val_succ] using hj
            simpa using hfirst j' hj'

lemma pickGoverning_mem (lcs : String → ℚ) :
    ∀ (l : List LoadCombination) (b : LoadCombination),
      pickGoverning lcs b l ∈ b :: l := by
  intro l
  induction l with
  | nil => intro b; simp [pickGoverning]
  | cons c rest ih =>
      intro b
      by_cases h : |factoredValue lcs b| < |factoredValue lcs c|
      · have hm := ih c
        simp only [pickGoverning, h, if_true]
        rcases List.mem_cons.mp hm with h1 | h1
        · simp [h1]
        · exact List.mem_cons_of_mem b (List.mem_cons_of_mem c h1)
      · have hm := ih b
        simp only [pickGoverning, h, if_false]
        rcases List.mem_cons.mp hm with h1 | h1
        · simp [h1]
        · exact List.mem_cons_of_mem b (List.mem_cons_of_mem c h1)

lemma selectFrom_spec (lcs : String → ℚ) (l : List LoadCombination) (hl : l ≠ []) :
    (selectFrom lcs l).1 ∈ l ∧
    (selectFrom lcs l).2 = factoredValue lcs (selectFrom lcs l).1 ∧
    (∀ c ∈ l, |factoredValue lcs c| ≤ |factoredValue lcs (selectFrom lcs l).1|) ∧
    ∃ i : Fin l.length, l.get i = (selectFrom lcs l).1 ∧
      ∀ j : Fin l.length, (j : ℕ) < (i : ℕ) →
        |factoredValue lcs (l.get j)| < |factoredValue lcs (selectFrom lcs l).1| := by
  cases l with
  | nil => exact absurd rfl hl
  | cons b rest =>
      have hsel : (selectFrom lcs (b :: rest)).1 = pickGoverning lcs b rest := rfl
      refine ⟨?_, rfl, ?_, ?_⟩
      · rw [hsel]; exact pickGoverning_mem lcs rest b
      · intro c hc
        rw [hsel]
        rcases List.mem_cons.mp hc with hc | hc
        · subst hc; exact pickGoverning_init_le lcs rest c
        · exact pickGoverning_mem_le lcs rest b c hc
      · rw [hsel]
        rcases pickGoverning_first lcs rest b with h0 | ⟨i, hi, hlt, hfirst⟩
        · refine ⟨⟨0, by simp⟩, by simpa using h0.symm, ?_⟩
          intro j hj; exact absurd hj (Nat.not_lt_zero _)
        · refine ⟨i.succ, by simpa using hi, ?_⟩
          intro j hj
          rcases Fin.eq_zero_or_eq_succ j with rfl | ⟨j', rfl⟩
          · simpa using hlt
          · have hj' : (j' : ℕ) < (i : ℕ) := by simpa [Fin.val_succ] using hj
            simpa using hfirst j' hj'

/-- C1: for every load-case set and method, `select_governing_combination`
returns a member of the selected catalog together with its factored value;
its factored value has magnitude at least every catalog combination's
(comparison by absolute value), and every combination listed before it in
the catalog has strictly smaller magnitude, so on a tie the first listed
wins. -/
theorem select_governing_combination_governs (lcs : String → ℚ) (method : DesignMethod) :
    (select_governing_combination lcs method).1 ∈ catalogFor method ∧
    (select_governing_combination lcs method).2 =
      factoredValue lcs (select_governing_combination lcs method).1 ∧
    (∀ c ∈ catalogFor method,
      |factoredValue lcs c| ≤ |factoredValue lcs (select_governing_combination lcs method).1|) ∧
    ∃ i : Fin (catalogFor method).length,
      (catalogFor method).get i = (select_governing_combination lcs method).1 ∧
      ∀ j : Fin (catalogFor method).length, (j : ℕ) < (i : ℕ) →
        |factoredValue lcs ((catalogFor method).get j)| <
          |factoredValue lcs (select_governing_combination lcs method).1| := by
  have hne : catalogFor method ≠ [] := by
    cases method <;> simp [catalogFor, LRFD_COMBINATIONS, ASD_COMBINATIONS]
  exact selectFrom_spec lcs (catalogFor method) hne

/-- C6 counterexample: the claim requires the ASD catalog to hold exactly 9
rules while matching the spec's enumerated listing, but that listing
enumerates 10 ASD rules, so the catalog built from it does not have 9. -/
theorem asd_catalog_is_not_nine_rules : ¬ ASD_COMBINATIONS.length = 9 := by
  decide

/-- C6 (amended): the static catalogs contain exactly 7 LRFD rules and
exactly 10 ASD rules, named and factored exactly as the spec's catalog
listing enumerates them. -/
theorem catalog_sizes_and_rules :
    LRFD_COMBINATIONS.length = 7 ∧
    ASD_COMBINATIONS.length = 10 ∧
    LRFD_COMBINATIONS.map (fun c => c.name) =
      ["1.4D", "1.2D+1.6L+0.5(Lr|S|R)", "1.2D+1.6(Lr|S|R)+(0.5L|0.5W)",
       "1.2D+1.0W+L+0.5(Lr|S|R)", "1.2D+1.0E+L+0.2S", "0.9D+1.0W", "0.9D+1.0E"] ∧
    ASD_COMBINATIONS.map (fun c => c.name) =
      ["D", "D+L", "D+(Lr|S|R)", "D+0.75L+0.75(Lr|S|R)", "D+0.6W", "D+0.7E",
       "D+0.75L+0.75(0.6W)+0.75(Lr|S|R)", "D+0.75L+0.75(0.7E)+0.75S",
       "0.6D+0.6W", "0.6D+0.7E"] ∧
    (LRFD_COMBINATIONS.map (fun c => c.factors)).head? =
      some [("D", 1.4)] ∧
    (ASD_COMBINATIONS.map (fun c => c.factors)).head? =
      some [("D", 1)] := by
  refine ⟨rfl, rfl, rfl, rfl, rfl, rfl⟩

/-- C8: the recognized load-type tags are exactly the ten tags of
`types.ts` (each `LoadType` member maps into the tag list, every tag is some
member's, the list has no duplicate and length ten), and every factor-map
key of every rule in both catalogs is one of these tags. -/
theorem load_tags_exhaustive_and_factor_keys_recognized :
    (∀ t : LoadType, loadTypeTag t ∈ recognizedLoadTags) ∧
    (∀ s ∈ recognizedLoadTags, ∃ t : LoadType, loadTypeTag t = s) ∧
    recognizedLoadTags.Nodup ∧
    recognizedLoadTags.length = 10 ∧
    (∀ c ∈ LRFD_COMBINATIONS ++ ASD_COMBINATIONS,
      ∀ p ∈ c.factors, p.1 ∈ recognizedLoadTags) := by
  refine ⟨?_, ?_, ?_, rfl, ?_⟩
  · intro t; cases t <;> decide
  · intro s hs
    fin_cases hs
    · exact ⟨LoadType.D, rfl⟩
    · exact ⟨LoadType.L, rfl⟩
    · exact ⟨LoadType.Lr, rfl⟩
    · exact ⟨LoadType.S, rfl⟩
    · exact ⟨LoadType.W, rfl⟩
    · exact ⟨LoadType.E, rfl⟩
    · exact ⟨LoadType.R, rfl⟩
    · exact ⟨LoadType.H, rfl⟩
    · exact ⟨LoadType.F, rfl⟩
    · exact ⟨LoadType.T, rfl⟩
  · decide
  · decide

/-- Modelled from the spec: the pass flag of every verification result of
`backend/engine/verification.py` and `backend/engine/connections.py` (not in
the provided files), "ok = ratio <= 1.0, with tolerance epsilon = 1e-9 to
avoid floating-point false negatives at exact capacity". -/
def okFlag (ratio : ℚ) : Bool := decide (ratio ≤ 1 + 1 / 1000000000)

/-- The `FlexureVerification` record of `frontend/src/lib/types.ts`. -/
structure FlexureVerification where
  Mu : ℚ
  phi_Mn : ℚ
  Mp : ℚ
  ratio : ℚ
  utilization : ℚ
  ok : Bool
  zone : String
  Lb : ℚ
  Lp : ℚ
  Lr : ℚ
  deriving DecidableEq, Repr

/-- Modelled from the spec: the plastic moment Mp = Fy x Zx of AISC F2. -/
def plasticMoment (Fy Zx : ℚ) : ℚ := Fy * Zx

/-- Modelled from the spec: the inelastic lateral-torsional-buckling moment
of `backend/engine/verification.py` (not in the provided files), "Mn
linearly interpolated between Mp (at Lp) and 0.7 x Fy x Sx (at Lr), scaled
by Cb"; the cap at Mp is applied by `flexMn`. -/
def inelasticMn (Fy Zx Sx Lp Lr Lb Cb : ℚ) : ℚ :=
  Cb * (plasticMoment Fy Zx -
    (plasticMoment Fy Zx - (7 / 10) * Fy * Sx) * ((Lb - Lp) / (Lr - Lp)))

/-- Modelled from the spec: the three-branch nominal flexural strength of
`backend/engine/verification.py` (not in the provided files).  The elastic
lateral-torsional-buckling moment, whose exact formula the spec only names
("function of E, Lb, ry, section constants"), enters as the argument `MnE`
and is capped at Mp here. -/
def flexMn (Fy Zx Sx Lp Lr Lb Cb MnE : ℚ) : ℚ :=
  if Lb ≤ Lp then plasticMoment Fy Zx
  else if Lb ≤ Lr then min (inelasticMn Fy Zx Sx Lp Lr Lb Cb) (plasticMoment Fy Zx)
  else min MnE (plasticMoment Fy Zx)

/-- Modelled from the spec: the zone name reported by `verify_flexure`. -/
def flexZoneName (Lp Lr Lb : ℚ) : String :=
  if Lb ≤ Lp then "plastic" else if Lb ≤ Lr then "inelastic" else "elastic"

/-- Modelled from the spec: `verify_flexure` of
`backend/engine/verification.py` (not in the provided files); Lp and Lr,
computed there by the AISC F2 limiting-length formulas from section
constants the spec does not reproduce, enter as inputs. -/
def verify_flexure (Fy Zx Sx Lp Lr Mu Lb Cb MnE : ℚ) : FlexureVerification :=
  let Mn := flexMn Fy Zx Sx Lp Lr Lb Cb MnE
  let phiMn := (9 / 10) * Mn
  let ratio := Mu / phiMn
  ⟨Mu, phiMn, plasticMoment Fy Zx, ratio, ratio * 100, okFlag ratio,
    flexZoneName Lp Lr Lb, Lb, Lp, Lr⟩

/-- C2: `verify_flexure` selects exactly one of three zones — Lb <= Lp the
plastic zone with Mn = Mp = Fy*Zx, Lp < Lb <= Lr the inelastic zone with Mn
the Cb-scaled linear interpolation capped at Mp, Lb > Lr the elastic zone
capped at Mp — and the inelastic interpolation is continuous at the
boundaries: at Lb = Lp it evaluates to Mp (for the neutral gradient Cb = 1,
and after the cap for any Cb >= 1), at Lb = Lr to 0.7*Fy*Sx (Cb = 1). -/
theorem verify_flexure_zones (Fy Zx Sx Lp Lr Mu Lb Cb MnE : ℚ) :
    (Lb ≤ Lp →
      (verify_flexure Fy Zx Sx Lp Lr Mu Lb Cb MnE).zone = "plastic" ∧
      flexMn Fy Zx Sx Lp Lr Lb Cb MnE = plasticMoment Fy Zx) ∧
    (Lp < Lb → Lb ≤ Lr →
      (verify_flexure Fy Zx Sx Lp Lr Mu Lb Cb MnE).zone = "inelastic" ∧
      flexMn Fy Zx Sx Lp Lr Lb Cb MnE =
        min (inelasticMn Fy Zx Sx Lp Lr Lb Cb) (plasticMoment Fy Zx) ∧
      flexMn Fy Zx Sx Lp Lr Lb Cb MnE ≤ plasticMoment Fy Zx) ∧
    (Lp < Lb → Lr < Lb →
      (verify_flexure Fy Zx Sx Lp Lr Mu Lb Cb MnE).zone = "elastic" ∧
      flexMn Fy Zx Sx Lp Lr Lb Cb MnE = min MnE (plasticMoment Fy Zx) ∧
      flexMn Fy Zx Sx Lp Lr Lb Cb MnE ≤ plasticMoment Fy Zx) ∧
    inelasticMn Fy Zx Sx Lp Lr Lp 1 = plasticMoment Fy Zx ∧
    (1 ≤ Cb → 0 ≤ plasticMoment Fy Zx →
      min (inelasticMn Fy Zx Sx Lp Lr Lp Cb) (plasticMoment Fy Zx) = plasticMoment Fy Zx) ∧
    (Lp ≠ Lr → inelasticMn Fy Zx Sx Lp Lr Lr 1 = (7 / 10) * Fy * Sx) := by
  refine ⟨?_, ?_, ?_, ?_, ?_, ?_⟩
  · intro h
    constructor
    · simp [verify_flexure, flexZoneName, h]
    · simp [flexMn, h]
  · intro h1 h2
    have h1' : ¬ Lb ≤ Lp := not_le.mpr h1
    refine ⟨?_, ?_, ?_⟩
    · simp [verify_flexure, flexZoneName, h1', h2]
    · simp [flexMn, h1', h2]
    · simp only [flexMn, h1', if_false, h2, if_true]
      exact min_le_right _ _
  · intro h1 h2
    have h1' : ¬ Lb ≤ Lp := not_le.mpr h1
    have h2' : ¬ Lb ≤ Lr := not_le.mpr h2
    refine ⟨?_, ?_, ?_⟩
    · simp [verify_flexure, flexZoneName, h1', h2']
    · simp [flexMn, h1', h2']
    · simp only [flexMn, h1', if_false, h2', if_false]
      exact min_le_right _ _
  · simp [inelasticMn]
  · intro hCb hMp
    have hval : inelasticMn Fy Zx Sx Lp Lr Lp Cb = Cb * plasticMoment Fy Zx := by
      simp [inelasticMn]
    rw [hval, min_eq_right]
    nlinarith
  · intro hne
    have hd : Lr - Lp ≠ 0 := sub_ne_zero.mpr (Ne.symm hne)
    unfold inelasticMn
    rw [div_self hd]
    ring

/-- The `SupportType` union of `frontend/src/lib/types.ts`. -/
inductive SupportType where
  | fixed | pinned | roller | free
  deriving DecidableEq, Repr

/-- The `DistributedLoad` record of `types.ts`; `endPos` embeds the field
named `end` there (a keyword here), `w_end` its optional trapezoidal end. -/
structure DistributedLoad where
  start : ℚ
  endPos : ℚ
  w_start : ℚ
  w_end : Option ℚ
  deriving DecidableEq, Repr

/-- The `PointLoad` record of `types.ts`. -/
structure PointLoad where
  position : ℚ
  Fx : ℚ
  Fy : ℚ
  Mz : ℚ
  deriving DecidableEq, Repr

/-- The `BeamAnalysisRequest` record of `types.ts`, its unit system kept as
the tag string. -/
structure BeamAnalysisRequest where
  length : ℚ
  support_left : SupportType
  support_right : SupportType
  section_id : String
  material_id : String
  point_loads : List PointLoad
  distributed_loads : List DistributedLoad
  units : String
  deriving DecidableEq, Repr

/-- The support-type union of `calculateBeamSimple` in
`frontend/src/lib/api.ts`. -/
inductive SimpleSupport where
  | simply_supported | cantilever | fixed_fixed
  deriving DecidableEq, Repr

/-- The result record of `calculateBeamSimple` in `api.ts`. -/
structure BeamSimpleResult where
  M_max : ℚ
  V_max : ℚ
  delta_max : ℚ
  deriving DecidableEq, Repr

/-- `calculateBeamSimple` of `frontend/src/lib/api.ts`: closed-form maximum
moment, shear and deflection of a uniformly loaded beam for the three
supported support types. -/
def calculateBeamSimple (L w Em I : ℚ) : SimpleSupport → BeamSimpleResult
  | SimpleSupport.simply_supported =>
      ⟨(w * L * L) / 8, (w * L) / 2, (5 * w * L ^ 4) / (384 * Em * I)⟩
  | SimpleSupport.cantilever =>
      ⟨(w * L * L) / 2, w * L, (w * L ^ 4) / (8 * Em * I)⟩
  | SimpleSupport.fixed_fixed =>
      ⟨(w * L * L) / 12, (w * L) / 2, (w * L ^ 4) / (384 * Em * I)⟩

/-- The `Reaction` record of `types.ts`. -/
structure Reaction where
  Rx : ℚ
  Ry : ℚ
  Mz : ℚ
  deriving DecidableEq, Repr

/-- The `ShearVerification` record of `types.ts`. -/
structure ShearVerification where
  Vu : ℚ
  phi_Vn : ℚ
  ratio : ℚ
  utilization : ℚ
  ok : Bool
  deriving DecidableEq, Repr

/-- The `DeflectionCheck` record of `types.ts`. -/
structure DeflectionCheck where
  limit : ℚ
  actual : ℚ
  ok : Bool
  deriving DecidableEq, Repr

/-- The `BeamVerification` record of `types.ts`; the deflection mapping is
kept as an association list from limit name to check. -/
structure BeamVerification where
  flexure : FlexureVerification
  shear : ShearVerification
  deflection : List (String × DeflectionCheck)
  overall_ok : Bool
  governing : String
  deriving DecidableEq, Repr

/-- The input echo of `BeamAnalysisResult` in `types.ts`, reduced to the
identifier fields the offline fallback fills. -/
structure BeamResultInput where
  length : ℚ
  section_id : String
  material_id : String
  support_left : SupportType
  support_right : SupportType
  deriving DecidableEq, Repr

/-- The `BeamAnalysisResult` record of `types.ts`: diagram lists are point
lists (position, value). -/
structure BeamAnalysisResult where
  status : String
  input : BeamResultInput
  reactions_left : Reaction
  reactions_right : Reaction
  displacements : List (ℚ × ℚ)
  diagrams_moment : List (ℚ × ℚ)
  diagrams_shear : List (ℚ × ℚ)
  diagrams_axial : List (ℚ × ℚ)
  max_moment : ℚ
  max_shear : ℚ
  max_deflection : ℚ
  verification : BeamVerification
  units : String
  deriving DecidableEq, Repr

/-- The offline fallback result that `analyzeBeam` of `api.ts` builds when
the backend call fails: `calculateBeamSimple` on the request length and the
first distributed load's `w_start`, with hard-coded E = 200000 MPa and
Ix = 1e8 mm^4, every verification flag false and zone "offline". -/
def offlineBeamResult (req : BeamAnalysisRequest) (dl : DistributedLoad) :
    BeamAnalysisResult :=
  let result := calculateBeamSimple req.length dl.w_start 200000 100000000
    SimpleSupport.simply_supported
  { status := "success"
    input := ⟨req.length, req.section_id, req.material_id,
      req.support_left, req.support_right⟩
    reactions_left := ⟨0, result.V_max, 0⟩
    reactions_right := ⟨0, result.V_max, 0⟩
    displacements := []
    diagrams_moment := []
    diagrams_shear := []
    diagrams_axial := []
    max_moment := result.M_max
    max_shear := result.V_max
    max_deflection := result.delta_max / 1000
    verification :=
      { flexure := ⟨result.M_max, 0, 0, 0, 0, false, "offline", 0, 0, 0⟩
        shear := ⟨result.V_max, 0, 0, 0, false⟩
        deflection := [("L/180", ⟨0, 0, false⟩), ("L/240", ⟨0, 0, false⟩),
          ("L/360", ⟨0, 0, false⟩)]
        overall_ok := false
        governing := "offline - requiere verificación online" }
    units := req.units }

/-- `analyzeBeam` of `frontend/src/lib/api.ts`, the backend HTTP call made
explicit as an `Except` argument and the browser's online flag as a
Boolean: a successful backend result passes through; on a failed call the
offline fallback answers only when offline with a nonempty distributed-load
list whose first load has `w_start > 0` on a pinned–roller beam, and the
error is rethrown otherwise. -/
def analyzeBeam (req : BeamAnalysisRequest) (online : Bool)
    (backend : Except String BeamAnalysisResult) : Except String BeamAnalysisResult :=
  match backend with
  | Except.ok r => Except.ok r
  | Except.error e =>
      match req.distributed_loads with
      | [] => Except.error e
      | dl :: _ =>
          if online = false ∧ req.support_left = SupportType.pinned ∧
              req.support_right = SupportType.roller ∧ 0 < dl.w_start then
            Except.ok (offlineBeamResult req dl)
          else
            Except.error e

/-- C9: `calculateBeamSimple` is total over its three support types and
returns exactly the closed-form simply-supported, cantilever and
fixed-fixed formulas for maximum moment, shear and deflection. -/
theorem calculateBeamSimple_formulas (L w Em I : ℚ) :
    calculateBeamSimple L w Em I SimpleSupport.simply_supported =
      ⟨w * L ^ 2 / 8, w * L / 2, 5 * w * L ^ 4 / (384 * Em * I)⟩ ∧
    calculateBeamSimple L w Em I SimpleSupport.cantilever =
      ⟨w * L ^ 2 / 2, w * L, w * L ^ 4 / (8 * Em * I)⟩ ∧
    calculateBeamSimple L w Em I SimpleSupport.fixed_fixed =
      ⟨w * L ^ 2 / 12, w * L / 2, w * L ^ 4 / (384 * Em * I)⟩ := by
  refine ⟨?_, ?_, ?_⟩ <;>
    simp only [calculateBeamSimple, BeamSimpleResult.mk.injEq] <;>
    refine ⟨by ring_nf, by ring_nf, by ring_nf⟩

/-- C10: when the backend call of `analyzeBeam` fails the error is rethrown
except exactly when the browser is offline, the supports are pinned–roller
and the first distributed load has `w_start > 0`; then the result is the
status-"success" offline fallback computed by `calculateBeamSimple` with
hard-coded E = 200000 and I = 1e8, all of whose verification flags are
false and whose flexure zone is "offline". -/
theorem analyzeBeam_offline_fallback (req : BeamAnalysisRequest) (e : String) (online : Bool) :
    (∀ r, analyzeBeam req online (Except.ok r) = Except.ok r) ∧
    (∀ dl rest, req.distributed_loads = dl :: rest → online = false →
      req.support_left = SupportType.pinned → req.support_right = SupportType.roller →
      0 < dl.w_start →
      analyzeBeam req online (Except.error e) = Except.ok (offlineBeamResult req dl) ∧
      (offlineBeamResult req dl).status = "success" ∧
      (offlineBeamResult req dl).verification.flexure.ok = false ∧
      (offlineBeamResult req dl).verification.shear.ok = false ∧
      (∀ p ∈ (offlineBeamResult req dl).verification.deflection, p.2.ok = false) ∧
      (offlineBeamResult req dl).verification.overall_ok = false ∧
      (offlineBeamResult req dl).verification.flexure.zone = "offline" ∧
      (offlineBeamResult req dl).max_moment =
        (calculateBeamSimple req.length dl.w_start 200000 100000000
          SimpleSupport.simply_supported).M_max ∧
      (offlineBeamResult req dl).max_shear =
        (calculateBeamSimple req.length dl.w_start 200000 100000000
          SimpleSupport.simply_supported).V_max ∧
      (offlineBeamResult req dl).max_deflection =
        (calculateBeamSimple req.length dl.w_start 200000 100000000
          SimpleSupport.simply_supported).delta_max / 1000) ∧
    ((online = true ∨ req.distributed_loads = [] ∨
        req.support_left ≠ SupportType.pinned ∨ req.support_right ≠ SupportType.roller ∨
        (∀ dl rest, req.distributed_loads = dl :: rest → dl.w_start ≤ 0)) →
      analyzeBeam req online (Except.error e) = Except.error e) := by
  refine ⟨fun r => rfl, ?_, ?_⟩
  · intro dl rest hloads honline hleft hright hw
    have hcond : online = false ∧ req.support_left = SupportType.pinned ∧
        req.support_right = SupportType.roller ∧ 0 < dl.w_start :=
      ⟨honline, hleft, hright, hw⟩
    refine ⟨?_, rfl, rfl, rfl, ?_, rfl, rfl, rfl, rfl, rfl⟩
    · simp only [analyzeBeam, hloads, if_pos hcond]
    · intro p hp
      simp only [offlineBeamResult, List.mem_cons, List.not_mem_nil, or_false] at hp
      rcases hp with rfl | rfl | rfl <;> rfl
  · intro h
    rcases hcase : req.distributed_loads with _ | ⟨dl, rest⟩
    · simp [analyzeBeam, hcase]
    · simp only [analyzeBeam, hcase]
      rw [if_neg]
      rintro ⟨honline, hleft, hright, hw⟩
      rcases h with h | h | h | h | h
      · rw [honline] at h; cases h
      · rw [hcase] at h; cases h
      · exact h hleft
      · exact h hright
      · exact absurd hw (not_lt.mpr (h dl rest hcase))

/-- A concrete distributed load, used to evaluate the offline fallback. -/
def dl0 : DistributedLoad := ⟨0, 6, 10, none⟩

/-- A concrete pinned–roller beam request with one distributed load. -/
def req0 : BeamAnalysisRequest :=
  ⟨6, SupportType.pinned, SupportType.roller, "W310X39", "A572_GR50", [], [dl0], "kN-m"⟩

/-- C3 counterexample: the offline fallback of `analyzeBeam` is a produced
verification result whose flexure check has ratio 0 yet ok = false, so
ok is not equivalent to ratio <= 1 there. -/
theorem offline_result_breaks_ok_iff :
    analyzeBeam req0 false (Except.error "Sin conexión") =
      Except.ok (offlineBeamResult req0 dl0) ∧
    (offlineBeamResult req0 dl0).verification.flexure.ratio = 0 ∧
    (offlineBeamResult req0 dl0).verification.flexure.ok = false := by
  refine ⟨rfl, rfl, rfl⟩

/-- C3 (amended): the spec-modelled pass flag used by the backend
verification results satisfies ok = true iff ratio <= 1 + 1e-9 — in
particular ratio 0 and ratio 1 pass — and `verify_flexure` uses it; the
offline fallback results of `analyzeBeam` are the exception, carrying
ok = false with ratio = 0. -/
theorem ok_iff_ratio_le_one (r : ℚ) :
    (okFlag r = true ↔ r ≤ 1 + 1 / 1000000000) ∧
    okFlag 0 = true ∧ okFlag 1 = true ∧
    (∀ Fy Zx Sx Lp Lr Mu Lb Cb MnE : ℚ,
      (verify_flexure Fy Zx Sx Lp Lr Mu Lb Cb MnE).ok =
        okFlag (verify_flexure Fy Zx Sx Lp Lr Mu Lb Cb MnE).ratio) ∧
    (offlineBeamResult req0 dl0).verification.flexure.ratio = 0 ∧
    (offlineBeamResult req0 dl0).verification.flexure.ok = false := by
  refine ⟨by simp [okFlag], by norm_num [okFlag], by norm_num [okFlag],
    fun _ _ _ _ _ _ _ _ _ => rfl, rfl, rfl⟩

/-- Modelled from the spec: `verify_deflection` of
`backend/engine/verification.py` (not in the provided files) — one entry
per configured limit denominator, limit = span/denominator, ok = actual <=
limit. -/
def verify_deflection (actual span : ℚ) (denoms : List ℚ) :
    List (ℚ × DeflectionCheck) :=
  denoms.map (fun n => (n, ⟨span / n, actual, decide (actual ≤ span / n)⟩))

/-- C7 counterexample: the offline fallback of `analyzeBeam` produces a
deflection entry with actual = 0 and limit = 0 >= 0 whose ok flag is
false, against the claim that such an entry always has ok = true. -/
theorem offline_deflection_entry_fails :
    analyzeBeam req0 false (Except.error "offline") =
      Except.ok (offlineBeamResult req0 dl0) ∧
    ("L/180", DeflectionCheck.mk 0 0 false) ∈
      (offlineBeamResult req0 dl0).verification.deflection := by
  exact ⟨rfl, List.mem_cons_self _ _⟩

/-- C7 (amended): for the configured denominators 180, 240, 360 the
spec-modelled `verify_deflection` returns one entry per denominator with
limit = span/denominator and ok = true iff actual <= limit, so an entry
with actual = 0 and limit >= 0 passes; the offline fallback's hard-coded
deflection entries are the exception, all ok = false at actual = 0. -/
theorem verify_deflection_entries (actual span : ℚ) :
    (verify_deflection actual span [180, 240, 360]).map Prod.fst = [180, 240, 360] ∧
    (∀ p ∈ verify_deflection actual span [180, 240, 360],
      p.2.limit = span / p.1 ∧ p.2.actual = actual ∧
      (p.2.ok = true ↔ p.2.actual ≤ p.2.limit) ∧
      (p.2.actual = 0 → 0 ≤ p.2.limit → p.2.ok = true)) ∧
    (offlineBeamResult req0 dl0).verification.deflection.map Prod.fst =
      ["L/180", "L/240", "L/360"] ∧
    (∀ p ∈ (offlineBeamResult req0 dl0).verification.deflection,
      p.2.actual = 0 ∧ 0 ≤ p.2.limit ∧ p.2.ok = false) := by
  refine ⟨rfl, ?_, rfl, ?_⟩
  · intro p hp
    simp only [verify_deflection, List.map_cons, List.map_nil, List.mem_cons,
      List.not_mem_nil, or_false] at hp
    rcases hp with rfl | rfl | rfl <;>
      refine ⟨rfl, rfl, by simp, ?_⟩ <;>
      · intro h0 hl
        simp only [decide_eq_true_eq]
        simp only at h0 hl
        rw [h0]
        exact hl
  · intro p hp
    simp only [offlineBeamResult, List.mem_cons, List.not_mem_nil, or_false] at hp
    rcases hp with rfl | rfl | rfl <;> exact ⟨rfl, le_refl 0, rfl⟩

/-- The nominal shear stress Fnv (MPa) by bolt grade, the `BOLT_PROPERTIES`
table of `backend/engine/connections.py` as recorded in the repository's
design documents and the spec's scenario (A325 Fnv = 372). -/
def BOLT_FNV (grade : String) : Option ℚ :=
  if grade = "A325" then some 372
  else if grade = "A490" then some 457
  else if grade = "4.6" then some 150
  else if grade = "8.8" then some 372
  else if grade = "10.9" then some 500
  else none

/-- The nominal bolt area Ab (mm^2) by metric diameter, the
`BOLT_DIAMETERS` table of `backend/engine/connections.py` as recorded in
the repository's design documents and the spec's scenario (M20 Ab = 314). -/
def BOLT_AB (dia : String) : Option ℚ :=
  if dia = "M12" then some 113
  else if dia = "M16" then some 201
  else if dia = "M20" then some 314
  else if dia = "M22" then some 380
  else if dia = "M24" then some 452
  else if dia = "M27" then some 573
  else if dia = "M30" then some 707
  else none

/-- The bolt-shear verification result, the `VerificationResult` shape of
`frontend/src/app/bolts/page.tsx`. -/
structure BoltShearResult where
  Rn : ℚ
  phi_Rn : ℚ
  ratio : ℚ
  utilization : ℚ
  ok : Bool
  deriving DecidableEq, Repr

/-- Modelled from the spec: `verify_bolt_shear` of
`backend/engine/connections.py` (not in the provided files) — Rn = Fnv x Ab
x shearPlanes x numBolts (force in kN after the /1000), phi = 0.75, ratio =
Vu / phi_Rn; an unknown grade or diameter yields no result. -/
def verify_bolt_shear (grade dia : String) (numBolts Vu shearPlanes : ℚ) :
    Option BoltShearResult :=
  match BOLT_FNV grade, BOLT_AB dia with
  | some fnv, some ab =>
      let Rn := fnv * ab * shearPlanes * numBolts / 1000
      let phiRn := (3 / 4) * Rn
      let ratio := Vu / phiRn
      some ⟨Rn, phiRn, ratio, ratio * 100, okFlag ratio⟩
  | some _, none => none
  | none, _ => none

/-- C5: for every recognized grade and diameter, `verify_bolt_shear`
returns the capacity Rn = Fnv x Ab x shearPlanes x numBolts / 1000 with
phi = 0.75 and ratio = Vu / phi_Rn. -/
theorem verify_bolt_shear_capacity (grade dia : String) (fnv ab : ℚ)
    (hg : BOLT_FNV grade = some fnv) (hd : BOLT_AB dia = some ab)
    (numBolts Vu shearPlanes : ℚ) :
    ∃ r, verify_bolt_shear grade dia numBolts Vu shearPlanes = some r ∧
      r.Rn = fnv * ab * shearPlanes * numBolts / 1000 ∧
      r.phi_Rn = (3 / 4) * r.Rn ∧
      r.ratio = Vu / r.phi_Rn ∧
      r.ok = okFlag r.ratio := by
  unfold verify_bolt_shear
  rw [hg, hd]
  exact ⟨_, rfl, rfl, rfl, rfl, rfl⟩

/-- C5 witness, the spec's concrete scenario 2: grade A325, diameter M20
(Ab = 314 mm^2), 4 bolts, one shear plane, Vu = 100 kN give phi_Rn =
350.424 kN (about 350.4), ratio about 0.2855 and ok = true. -/
theorem verify_bolt_shear_scenario :
    ∃ r, verify_bolt_shear "A325" "M20" 4 100 1 = some r ∧
      r.phi_Rn = 350424 / 1000 ∧
      |r.phi_Rn - 3504 / 10| < 1 / 10 ∧
      |r.ratio - 2855 / 10000| < 2 / 10000 ∧
      r.ok = true := by
  obtain ⟨r, hr, hRn, hphi, hratio, hok⟩ :=
    verify_bolt_shear_capacity "A325" "M20" 372 314 rfl rfl 4 100 1
  have hphiv : r.phi_Rn = 350424 / 1000 := by rw [hphi, hRn]; norm_num
  refine ⟨r, hr, hphiv, ?_, ?_, ?_⟩
  · rw [hphiv, abs_lt]
    constructor <;> norm_num
  · rw [hratio, hphiv, abs_lt]
    constructor <;> norm_num
  · rw [hok, hratio, hphiv]
    simp only [okFlag, decide_eq_true_eq]
    norm_num

/-- Modelled from the spec: the Euler critical stress Fe = pi^2 E / lambda^2
of `verify_compression` in `backend/engine/verification.py` (not in the
provided files). -/
noncomputable def eulerFe (Em lam : ℝ) : ℝ := Real.pi ^ 2 * Em / lam ^ 2

/-- Modelled from the spec: the critical-stress branch of
`verify_compression` in `backend/engine/verification.py` (not in the
provided files) — Fe >= 0.44 Fy gives the inelastic curve Fcr = Fy x
0.658^(Fy/Fe), otherwise the elastic curve Fcr = 0.877 Fe. -/
noncomputable def criticalStress (Fy FeV : ℝ) : ℝ :=
  if 0.44 * Fy ≤ FeV then Fy * (0.658 : ℝ) ^ (Fy / FeV) else 0.877 * FeV

/-- C4: the compression critical stress is chosen by the single test
Fe >= 0.44 Fy — inelastic Fcr = Fy x 0.658^(Fy/Fe) when it holds, elastic
Fcr = 0.877 Fe otherwise — and for lambda = 200, Fy = 250 MPa, E = 200000
MPa the elastic branch is taken, with Fe = 5 pi^2 within 0.1 of 49.3 MPa
and Fcr within 0.1 of 43.3 MPa. -/
theorem compression_branch_and_slender_scenario :
    (∀ Fy FeV : ℝ, 0.44 * Fy ≤ FeV →
      criticalStress Fy FeV = Fy * (0.658 : ℝ) ^ (Fy / FeV)) ∧
    (∀ Fy FeV : ℝ, FeV < 0.44 * Fy → criticalStress Fy FeV = 0.877 * FeV) ∧
    eulerFe 200000 200 = 5 * Real.pi ^ 2 ∧
    eulerFe 200000 200 < 0.44 * 250 ∧
    |eulerFe 200000 200 - 49.3| < 1 / 10 ∧
    criticalStress 250 (eulerFe 200000 200) = 0.877 * eulerFe 200000 200 ∧
    |criticalStress 250 (eulerFe 200000 200) - 43.3| < 1 / 10 := by
  have hpi1 : (3.141592 : ℝ) < Real.pi := Real.pi_gt_d6
  have hpi2 : Real.pi < 3.141593 := Real.pi_lt_d6
  have hFe : eulerFe 200000 200 = 5 * Real.pi ^ 2 := by
    unfold eulerFe; ring
  have hlow : (49.3 : ℝ) < 5 * Real.pi ^ 2 := by nlinarith
  have hhigh : 5 * Real.pi ^ 2 < 49.35 := by nlinarith
  have hsmall : eulerFe 200000 200 < 0.44 * 250 := by
    rw [hFe]; nlinarith
  have hbranch : criticalStress 250 (eulerFe 200000 200) = 0.877 * eulerFe 200000 200 := by
    unfold criticalStress
    rw [if_neg]
    exact not_le.mpr (by norm_num at hsmall ⊢; exact hsmall)
  refine ⟨?_, ?_, hFe, hsmall, ?_, hbranch, ?_⟩
  · intro Fy FeV h; unfold criticalStress; rw [if_pos h]
  · intro Fy FeV h; unfold criticalStress; rw [if_neg (not_le.mpr h)]
  · rw [hFe, abs_lt]; constructor <;> nlinarith
  · rw [hbranch, hFe, abs_lt]; constructor <;> nlinarith

end StructCalc
